import Mathlib

/-!
Verification of the knowledge-graph visualization core (graph builder and
force simulation) against its natural-language specification.  The
definitions below are a shallow embedding of the KnowledgeGraph component:
the graph builder (`mergedNotes`, `buildNodes`, `buildLinks`), the per-frame
physics step (`physNode`, `step`), and the pointer handlers
(`handleMouseDown`, `handleMouseUp`).  JavaScript numbers are modelled as
real numbers; the unseeded random initial positions are modelled by an
explicit position oracle passed to the builder.
-/

namespace KG

/-- A declared semantic link on a note: target note id plus an optional
human-readable reason (`metadata.smartLinks` entries). -/
structure SmartLink where
  targetId : String
  reason : Option String
deriving DecidableEq

/-- An input note (entity): id, text content, optional life-axis category and
declared semantic links.  A missing `metadata.smartLinks` field is modelled
as the empty list. -/
structure Note where
  id : String
  content : String
  lifeAxis : Option String
  smartLinks : List SmartLink
deriving DecidableEq

/-- A graph node: the note fields plus position, velocity, radius, focal flag
and color, exactly the fields of the component's `Node` interface. -/
structure Node where
  id : String
  content : String
  lifeAxis : Option String
  smartLinks : List SmartLink
  x : ℝ
  y : ℝ
  vx : ℝ
  vy : ℝ
  radius : ℝ
  isCurrent : Bool
  color : String

/-- An edge of the graph: source and target node ids plus an optional
reason, exactly the component's `Link` interface. -/
structure Link where
  source : String
  target : String
  reason : Option String
deriving DecidableEq

/-- Life-axis category to color, the `switch` in the node construction;
unknown or missing categories fall back to the default muted color. -/
def axisColor (axis : Option String) : String :=
  match axis with
  | some s =>
    if s = "Career" then "#3b82f6"
    else if s = "Health" then "#10b981"
    else if s = "Creative Output" then "#8b5cf6"
    else if s = "Learning" then "#f59e0b"
    else if s = "Relationships" then "#f43f5e"
    else if s = "Mental State" then "#06b6d4"
    else "#64748b"
  | none => "#64748b"

/-- Node color: the current (focal) node is white, otherwise the life-axis
color. -/
def nodeColor (isCurrent : Bool) (axis : Option String) : String :=
  if isCurrent then "#ffffff" else axisColor axis

/-- Node radius: `isCurrent ? 20 : 8 + Math.min(content.length / 500, 10)`. -/
noncomputable def nodeRadius (isCurrent : Bool) (contentLen : Nat) : ℝ :=
  if isCurrent then 20 else 8 + min ((contentLen : ℝ) / 500) 10

/-- Build one node from a note, given the current (focal) note and this
node's pseudo-random initial position. -/
noncomputable def mkNode (current : Note) (p : ℝ × ℝ) (n : Note) : Node :=
  let isCur := n.id == current.id
  { id := n.id
    content := n.content
    lifeAxis := n.lifeAxis
    smartLinks := n.smartLinks
    x := p.1
    y := p.2
    vx := 0
    vy := 0
    radius := nodeRadius isCur n.content.length
    isCurrent := isCur
    color := nodeColor isCur n.lifeAxis }

/-- The merged note list: replace every pool entry sharing the focal note's id by
the focal note itself; if no entry matches, append the focal note. -/
def mergedNotes (current : Note) (all : List Note) : List Note :=
  let m := all.map (fun n => if n.id == current.id then current else n)
  if (m.find? (fun n => n.id == current.id)).isSome then m else m ++ [current]

/-- Turn the merged note list into nodes, drawing initial positions from the
oracle `pos` in iteration order. -/
noncomputable def buildNodesAux (current : Note) (pos : Nat → ℝ × ℝ) :
    Nat → List Note → List Node
  | _, [] => []
  | k, n :: rest => mkNode current (pos k) n :: buildNodesAux current pos (k + 1) rest

/-- The node half of `graphData`: one node per merged note. -/
noncomputable def buildNodes (current : Note) (all : List Note) (pos : Nat → ℝ × ℝ) :
    List Node :=
  buildNodesAux current pos 0 (mergedNotes current all)

/-- The bidirectional existence check performed before pushing a link:
`links.some(l => (l.source === s && l.target === t) || (l.source === t && l.target === s))`. -/
def linkExists (acc : List Link) (s t : String) : Bool :=
  acc.any (fun l => (l.source == s && l.target == t) || (l.source == t && l.target == s))

/-- Process one source node's smart links: push a link for each target that
resolves to a known node id, unless the unordered pair already has a link. -/
def addLinksAux (srcId : String) (ids : List String) :
    List Link → List SmartLink → List Link
  | acc, [] => acc
  | acc, sl :: rest =>
    if ids.contains sl.targetId then
      if linkExists acc srcId sl.targetId then addLinksAux srcId ids acc rest
      else addLinksAux srcId ids (acc ++ [⟨srcId, sl.targetId, sl.reason⟩]) rest
    else addLinksAux srcId ids acc rest

/-- Fold link creation over all nodes in order. -/
def buildLinksAux (ids : List String) : List Link → List Node → List Link
  | acc, [] => acc
  | acc, n :: rest => buildLinksAux ids (addLinksAux n.id ids acc n.smartLinks) rest

/-- The link half of `graphData`: iterate the nodes, creating deduplicated
links from their declared smart links. -/
def buildLinks (ns : List Node) : List Link :=
  buildLinksAux (ns.map (fun n => n.id)) [] ns

/-! ## Physics simulation -/

/-- Repulsion constant. -/
def REPULSION : ℝ := 1200
/-- Spring rest length. -/
def SPRING_LENGTH : ℝ := 180
/-- Spring constant. -/
def SPRING_STRENGTH : ℝ := 0.04
/-- Per-frame velocity damping (friction). -/
def DAMPING : ℝ := 0.85
/-- Center-gravity strength. -/
def CENTER_PULL : ℝ := 0.008

/-- Frame environment: canvas dimensions, the index of the node currently
being dragged (if any), and the latest pointer position. -/
structure Env where
  width : ℝ
  height : ℝ
  dragging : Option Nat
  mouseX : ℝ
  mouseY : ℝ

/-- Raw Euclidean distance between two nodes' positions,
`Math.sqrt(dx*dx + dy*dy)`. -/
noncomputable def rawDist (node other : Node) : ℝ :=
  Real.sqrt ((node.x - other.x) * (node.x - other.x) +
    (node.y - other.y) * (node.y - other.y))

/-- Distance used by the repulsion computation:
`let dist = Math.sqrt(...) || 1; if (dist < 1) dist = 1;`. -/
noncomputable def clampedDist (node other : Node) : ℝ :=
  let d0 := rawDist node other
  let d1 := if d0 = 0 then 1 else d0
  if d1 < 1 then 1 else d1

/-- The repulsion force contribution that `node` accumulates against
`other`: magnitude `REPULSION / dist²` along the displacement direction. -/
noncomputable def repContrib (node other : Node) : ℝ × ℝ :=
  let dist := clampedDist node other
  let force := REPULSION / (dist * dist)
  ((node.x - other.x) / dist * force, (node.y - other.y) / dist * force)

/-- Accumulate repulsion from every other node, skipping the node itself
(object identity, modelled by list index `k`); `j` is the index of the head
of the remaining list. -/
noncomputable def repAccumAux (node : Node) (k : Nat) :
    Nat → ℝ × ℝ → List Node → ℝ × ℝ
  | _, f, [] => f
  | j, f, other :: rest =>
    if j = k then repAccumAux node k (j + 1) f rest
    else
      repAccumAux node k (j + 1)
        (f.1 + (repContrib node other).1, f.2 + (repContrib node other).2) rest

/-- The spring force contribution on `node` from one link toward `other`:
`fx -= (dx / dist) * (dist - SPRING_LENGTH) * SPRING_STRENGTH`. -/
noncomputable def springContrib (node other : Node) : ℝ × ℝ :=
  let dx := node.x - other.x
  let dy := node.y - other.y
  let d0 := Real.sqrt (dx * dx + dy * dy)
  let dist := if d0 = 0 then 1 else d0
  let force := (dist - SPRING_LENGTH) * SPRING_STRENGTH
  (-(dx / dist * force), -(dy / dist * force))

/-- Accumulate spring forces over all links touching the node at index `k`;
link endpoints are resolved by id against the current (partially updated)
node list, and endpoint identity against the node is index identity. -/
noncomputable def springAccumAux (ns : List Node) (k : Nat) (node : Node) :
    ℝ × ℝ → List Link → ℝ × ℝ
  | f, [] => f
  | f, link :: rest =>
    match ns.findIdx? (fun n => n.id == link.source),
        ns.findIdx? (fun n => n.id == link.target) with
    | some si, some ti =>
      if si = k ∨ ti = k then
        match (if si = k then ns.get? ti else ns.get? si) with
        | some other =>
          springAccumAux ns k node
            (f.1 + (springContrib node other).1, f.2 + (springContrib node other).2) rest
        | none => springAccumAux ns k node f rest
      else springAccumAux ns k node f rest
    | _, _ => springAccumAux ns k node f rest

/-- Center gravity: pull toward the canvas center with strength
`CENTER_PULL`. -/
noncomputable def centerAdd (env : Env) (node : Node) (f : ℝ × ℝ) : ℝ × ℝ :=
  (f.1 + (env.width / 2 - node.x) * CENTER_PULL,
   f.2 + (env.height / 2 - node.y) * CENTER_PULL)

/-- Boundary containment: clamp each coordinate to
`[radius + 10, dimension - (radius + 10)]`, inverting the corresponding
velocity component on contact; the four checks run in source order, each
reading the possibly already clamped coordinate. -/
noncomputable def clampNode (env : Env) (n0 : Node) : Node :=
  let p := n0.radius + 10
  let n1 := if n0.x < p then { n0 with x := p, vx := n0.vx * (-1) } else n0
  let n2 := if n1.x > env.width - p then
      { n1 with x := env.width - p, vx := n1.vx * (-1) } else n1
  let n3 := if n2.y < p then { n2 with y := p, vy := n2.vy * (-1) } else n2
  if n3.y > env.height - p then
    { n3 with y := env.height - p, vy := n3.vy * (-1) } else n3

/-- One node's physics update.  A dragged node only has its velocity
overridden toward the pointer; every other node accumulates repulsion,
spring and center forces, then integrates velocity and position and is
clamped to the canvas. -/
noncomputable def physNode (env : Env) (links : List Link) (ns : List Node)
    (k : Nat) (node : Node) : Node :=
  if env.dragging = some k then
    { node with
      vx := (env.mouseX - node.x) * 0.1
      vy := (env.mouseY - node.y) * 0.1 }
  else
    let f0 := repAccumAux node k 0 (0, 0) ns
    let f1 := springAccumAux ns k node f0 links
    let f := centerAdd env node f1
    let vx := (node.vx + f.1) * DAMPING
    let vy := (node.vy + f.2) * DAMPING
    clampNode env { node with vx := vx, vy := vy, x := node.x + vx, y := node.y + vy }

/-- Update the node at index `k` in place (the `forEach` body). -/
noncomputable def processIdx (env : Env) (links : List Link) (ns : List Node)
    (k : Nat) : List Node :=
  match ns.get? k with
  | some node => ns.set k (physNode env links ns k node)
  | none => ns

/-- The state of the node list after the first `k` nodes of the frame's
sequential, in-place `forEach` update have run. -/
noncomputable def stepUpTo (env : Env) (links : List Link) (ns : List Node) :
    Nat → List Node
  | 0 => ns
  | k + 1 => processIdx env links (stepUpTo env links ns k) k

/-- One full physics step (one animation frame's physics pass). -/
noncomputable def step (env : Env) (links : List Link) (ns : List Node) : List Node :=
  stepUpTo env links ns ns.length

/-- Iterate the physics step `m` times under a fixed environment. -/
noncomputable def iter (env : Env) (links : List Link) : Nat → List Node → List Node
  | 0, ns => ns
  | m + 1, ns => iter env links m (step env links ns)

/-- The repulsion contribution that node `i`'s force accumulation computes
against node `j` during a step: evaluated on the node list as it stands when
node `i`'s update runs (nodes before `i` already updated in place). -/
noncomputable def repForceOn (env : Env) (links : List Link) (ns : List Node)
    (i j : Nat) : ℝ × ℝ :=
  let s := stepUpTo env links ns i
  match s.get? i, s.get? j with
  | some a, some b => repContrib a b
  | _, _ => (0, 0)

/-- Position inside the boundary-containment interval on both axes. -/
def InBounds (env : Env) (n : Node) : Prop :=
  n.radius + 10 ≤ n.x ∧ n.x ≤ env.width - (n.radius + 10) ∧
  n.radius + 10 ≤ n.y ∧ n.y ≤ env.height - (n.radius + 10)

/-! ## Pointer interaction -/

/-- Index of the first node whose center is within `radius + 5` of the
pointer (the hit test in `handleMouseDown`); `k` is the index of the head of
the remaining list. -/
noncomputable def findHitIdxAux (x y : ℝ) : Nat → List Node → Option Nat
  | _, [] => none
  | k, n :: rest =>
    if Real.sqrt ((n.x - x) * (n.x - x) + (n.y - y) * (n.y - y)) < n.radius + 5
    then some k
    else findHitIdxAux x y (k + 1) rest

/-- Pointer-down handler: if a node is hit it becomes the dragged node,
otherwise the dragging state is unchanged. -/
noncomputable def handleMouseDown (ns : List Node) (dragging : Option Nat)
    (x y : ℝ) : Option Nat :=
  match findHitIdxAux x y 0 ns with
  | some k => some k
  | none => dragging

/-- Pointer-up handler: returns the navigation request (if any) and the new
dragging state.  If a node was being dragged and the release point is within
`radius + 10` of the node's center, the gesture counts as a click and
navigation fires unless the node is the focal one. -/
noncomputable def handleMouseUp (current : Note) (ns : List Node)
    (dragging : Option Nat) (x y : ℝ) : Option String × Option Nat :=
  match dragging with
  | none => (none, none)
  | some k =>
    match ns.get? k with
    | none => (none, none)
    | some n =>
      if Real.sqrt ((n.x - x) * (n.x - x) + (n.y - y) * (n.y - y)) < n.radius + 10
      then
        if n.id = current.id then (none, none) else (some n.id, none)
      else (none, none)

/-! ## Concrete fixtures used by counterexamples and witnesses -/

/-- A focal note with no links. -/
def noteA : Note := { id := "a", content := "", lifeAxis := none, smartLinks := [] }

/-- A pool note with no links. -/
def noteB : Note := { id := "b", content := "", lifeAxis := none, smartLinks := [] }

/-- A note declaring a link a → b. -/
def noteAtoB : Note :=
  { id := "a", content := "", lifeAxis := none, smartLinks := [⟨"b", none⟩] }

/-- A note declaring a link b → a (reciprocal of `noteAtoB`). -/
def noteBtoA : Note :=
  { id := "b", content := "", lifeAxis := none, smartLinks := [⟨"a", none⟩] }

/-- A note declaring a link b → c. -/
def noteBtoC : Note :=
  { id := "b", content := "", lifeAxis := none, smartLinks := [⟨"c", none⟩] }

/-- A note declaring a link c → a. -/
def noteCtoA : Note :=
  { id := "c", content := "", lifeAxis := none, smartLinks := [⟨"a", none⟩] }

/-- A note declaring a link to itself. -/
def noteSelf : Note :=
  { id := "s", content := "", lifeAxis := none, smartLinks := [⟨"s", none⟩] }

/-- A trivial initial-position oracle. -/
def posZero : Nat → ℝ × ℝ := fun _ => (0, 0)

/-! ## Graph-builder lemmas -/

/-- Two links connect the same unordered pair of ids. -/
def MatchesPair (l : Link) (s t : String) : Prop :=
  (l.source = s ∧ l.target = t) ∨ (l.source = t ∧ l.target = s)

theorem linkExists_false {acc : List Link} {s t : String}
    (h : linkExists acc s t = false) : ∀ l ∈ acc, ¬ MatchesPair l s t := by
  intro l hl hm
  rw [linkExists, List.any_eq_false] at h
  have h2 := h l hl
  simp only [Bool.or_eq_true, Bool.and_eq_true, beq_iff_eq] at h2
  exact h2 hm

theorem linkExists_true {acc : List Link} {s t : String}
    (h : linkExists acc s t = true) : ∃ l ∈ acc, MatchesPair l s t := by
  rw [linkExists, List.any_eq_true] at h
  obtain ⟨l, hl, hp⟩ := h
  refine ⟨l, hl, ?_⟩
  simp only [Bool.or_eq_true, Bool.and_eq_true, beq_iff_eq] at hp
  rcases hp with ⟨h1, h2⟩ | ⟨h1, h2⟩
  · exact Or.inl ⟨h1, h2⟩
  · exact Or.inr ⟨h1, h2⟩

theorem addLinksAux_mono {srcId : String} {ids : List String} :
    ∀ (sls : List SmartLink) (acc : List Link) (l : Link),
      l ∈ acc → l ∈ addLinksAux srcId ids acc sls := by
  intro sls
  induction sls with
  | nil => intro acc l hl; simpa [addLinksAux] using hl
  | cons sl rest ih =>
    intro acc l hl
    simp only [addLinksAux]
    split
    · split
      · exact ih acc l hl
      · exact ih _ l (List.mem_append_left _ hl)
    · exact ih acc l hl

theorem buildLinksAux_mono {ids : List String} :
    ∀ (ns : List Node) (acc : List Link) (l : Link),
      l ∈ acc → l ∈ buildLinksAux ids acc ns := by
  intro ns
  induction ns with
  | nil => intro acc l hl; simpa [buildLinksAux] using hl
  | cons n rest ih =>
    intro acc l hl
    simp only [buildLinksAux]
    exact ih _ l (addLinksAux_mono _ acc l hl)

theorem addLinksAux_pairwise {srcId : String} {ids : List String} :
    ∀ (sls : List SmartLink) (acc : List Link),
      acc.Pairwise (fun l1 l2 => ¬ MatchesPair l1 l2.source l2.target) →
      (addLinksAux srcId ids acc sls).Pairwise
        (fun l1 l2 => ¬ MatchesPair l1 l2.source l2.target) := by
  intro sls
  induction sls with
  | nil => intro acc h; simpa [addLinksAux] using h
  | cons sl rest ih =>
    intro acc h
    simp only [addLinksAux]
    split
    · split
      · exact ih acc h
      · next hex =>
        refine ih _ (List.pairwise_append.mpr ⟨h, List.pairwise_singleton _ _, ?_⟩)
        intro l hl l2 hl2
        rw [List.mem_singleton] at hl2
        subst hl2
        exact linkExists_false (Bool.not_eq_true _ ▸ eq_false_of_ne_true hex) l hl
    · exact ih acc h

theorem buildLinksAux_pairwise {ids : List String} :
    ∀ (ns : List Node) (acc : List Link),
      acc.Pairwise (fun l1 l2 => ¬ MatchesPair l1 l2.source l2.target) →
      (buildLinksAux ids acc ns).Pairwise
        (fun l1 l2 => ¬ MatchesPair l1 l2.source l2.target) := by
  intro ns
  induction ns with
  | nil => intro acc h; simpa [buildLinksAux] using h
  | cons n rest ih =>
    intro acc h
    simp only [buildLinksAux]
    exact ih _ (addLinksAux_pairwise _ acc h)

/-- The build never creates two links over the same unordered id pair. -/
theorem buildLinks_pairwise (ns : List Node) :
    (buildLinks ns).Pairwise (fun l1 l2 => ¬ MatchesPair l1 l2.source l2.target) := by
  exact buildLinksAux_pairwise ns [] (List.Pairwise.nil)

theorem addLinksAux_covers {srcId : String} {ids : List String} :
    ∀ (sls : List SmartLink) (acc : List Link) (sl : SmartLink), sl ∈ sls →
      ids.contains sl.targetId = true →
      ∃ l ∈ addLinksAux srcId ids acc sls, MatchesPair l srcId sl.targetId := by
  intro sls
  induction sls with
  | nil => intro acc sl h; exact absurd h (List.not_mem_nil sl)
  | cons sl0 rest ih =>
    intro acc sl hmem hc
    rcases List.mem_cons.mp hmem with he | hrest
    · subst he
      simp only [addLinksAux, hc, if_true]
      split
      · next hex =>
        obtain ⟨l, hl, hm⟩ := linkExists_true hex
        exact ⟨l, addLinksAux_mono rest acc l hl, hm⟩
      · refine ⟨⟨srcId, sl.targetId, sl.reason⟩,
          addLinksAux_mono rest _ _ (List.mem_append_right _ (List.mem_singleton_self _)), ?_⟩
        exact Or.inl ⟨rfl, rfl⟩
    · simp only [addLinksAux]
      split
      · split
        · exact ih acc sl hrest hc
        · exact ih _ sl hrest hc
      · exact ih acc sl hrest hc

theorem buildLinksAux_covers {ids : List String} :
    ∀ (ns : List Node) (acc : List Link) (nd : Node) (sl : SmartLink),
      nd ∈ ns → sl ∈ nd.smartLinks → ids.contains sl.targetId = true →
      ∃ l ∈ buildLinksAux ids acc ns, MatchesPair l nd.id sl.targetId := by
  intro ns
  induction ns with
  | nil => intro acc nd sl h; exact absurd h (List.not_mem_nil nd)
  | cons n rest ih =>
    intro acc nd sl hmem hsl hc
    rcases List.mem_cons.mp hmem with he | hrest
    · subst he
      simp only [buildLinksAux]
      obtain ⟨l, hl, hm⟩ := addLinksAux_covers nd.smartLinks acc sl hsl hc
      exact ⟨l, buildLinksAux_mono rest _ l hl, hm⟩
    · simp only [buildLinksAux]
      exact ih _ nd sl hrest hsl hc

theorem buildNodesAux_map_id (current : Note) (pos : Nat → ℝ × ℝ) :
    ∀ (k : Nat) (notes : List Note),
      (buildNodesAux current pos k notes).map (fun n => n.id) =
        notes.map (fun n => n.id) := by
  intro k notes
  induction notes generalizing k with
  | nil => simp [buildNodesAux]
  | cons n rest ih => simp [buildNodesAux, mkNode, ih]

theorem buildNodesAux_countP_focal (current : Note) (pos : Nat → ℝ × ℝ) :
    ∀ (k : Nat) (notes : List Note),
      (buildNodesAux current pos k notes).countP (fun n => n.isCurrent) =
        notes.countP (fun n => n.id == current.id) := by
  intro k notes
  induction notes generalizing k with
  | nil => simp [buildNodesAux]
  | cons n rest ih =>
    by_cases h : n.id == current.id
    · simp [buildNodesAux, List.countP_cons, mkNode, h, ih]
    · simp [buildNodesAux, List.countP_cons, mkNode, h, ih]

theorem buildNodesAux_isCurrent_id (current : Note) (pos : Nat → ℝ × ℝ) :
    ∀ (k : Nat) (notes : List Note) (nd : Node),
      nd ∈ buildNodesAux current pos k notes →
      (nd.isCurrent = true ↔ nd.id = current.id) := by
  intro k notes
  induction notes generalizing k with
  | nil => intro nd h; exact absurd h (List.not_mem_nil nd)
  | cons n rest ih =>
    intro nd hmem
    rcases List.mem_cons.mp hmem with he | hrest
    · subst he
      simp [mkNode, beq_iff_eq]
    · exact ih _ nd hrest

theorem buildNodesAux_mem (current : Note) (pos : Nat → ℝ × ℝ) :
    ∀ (k : Nat) (notes : List Note) (e : Note), e ∈ notes →
      ∃ nd ∈ buildNodesAux current pos k notes,
        nd.id = e.id ∧ nd.smartLinks = e.smartLinks := by
  intro k notes
  induction notes generalizing k with
  | nil => intro e h; exact absurd h (List.not_mem_nil e)
  | cons n rest ih =>
    intro e hmem
    rcases List.mem_cons.mp hmem with he | hrest
    · subst he
      exact ⟨mkNode current (pos k) e, List.mem_cons_self _ _, rfl, rfl⟩
    · obtain ⟨nd, hnd, h1, h2⟩ := ih (k + 1) e hrest
      exact ⟨nd, List.mem_cons_of_mem _ hnd, h1, h2⟩

theorem mergedNotes_self_mem (current : Note) (all : List Note) :
    current ∈ mergedNotes current all := by
  rw [mergedNotes]
  split
  · next h =>
    rw [List.find?_isSome] at h
    obtain ⟨x, hx, hp⟩ := h
    obtain ⟨n, hn, he⟩ := List.mem_map.mp hx
    by_cases hc : n.id == current.id
    · rw [if_pos hc] at he
      exact he ▸ hx
    · rw [if_neg hc] at he
      rw [← he] at hp
      exact absurd hp (by simp [hc])
  · exact List.mem_append_right _ (List.mem_singleton_self _)

theorem mergedNotes_map_id_or (current : Note) (all : List Note) :
    (mergedNotes current all).map (fun n => n.id) = all.map (fun n => n.id) ∨
    ((mergedNotes current all).map (fun n => n.id) =
        all.map (fun n => n.id) ++ [current.id] ∧
      current.id ∉ all.map (fun n => n.id)) := by
  have hrepl : (all.map (fun n => if n.id == current.id then current else n)).map
      (fun n => n.id) = all.map (fun n => n.id) := by
    rw [List.map_map]
    refine List.map_congr_left ?_
    intro n _
    simp only [Function.comp_apply]
    by_cases h : n.id = current.id
    · simp [h]
    · simp [h]
  rw [mergedNotes]
  split
  · exact Or.inl hrepl
  · next h =>
    right
    constructor
    · simp only [List.map_append, List.map_cons, List.map_nil, hrepl]
    · have h2 : List.find? (fun n => n.id == current.id)
          (all.map (fun n => if n.id == current.id then current else n)) = none := by
        cases hfind : List.find? (fun n => n.id == current.id)
            (all.map (fun n => if n.id == current.id then current else n)) with
        | none => rfl
        | some x => rw [hfind] at h; simp at h
      rw [List.find?_eq_none] at h2
      intro hmem
      obtain ⟨n, hn, he⟩ := List.mem_map.mp hmem
      have h3 := h2 (if n.id == current.id then current else n)
        (List.mem_map_of_mem _ hn)
      by_cases hc : n.id = current.id
      · simp [hc] at h3
      · rw [if_neg (by simpa using hc)] at h3
        simp only [beq_iff_eq] at h3
        exact h3 he

theorem mergedNotes_countP_focal (current : Note) (all : List Note)
    (h : all.countP (fun n => n.id == current.id) ≤ 1) :
    (mergedNotes current all).countP (fun n => n.id == current.id) = 1 := by
  have hrepl : (all.map (fun n => if n.id == current.id then current else n)).countP
      (fun n => n.id == current.id) = all.countP (fun n => n.id == current.id) := by
    rw [List.countP_map]
    refine List.countP_congr ?_
    intro n _
    simp only [Function.comp_apply]
    by_cases hc : n.id = current.id
    · simp [hc]
    · simp [hc]
  rw [mergedNotes]
  split
  · next hs =>
    rw [List.find?_isSome] at hs
    obtain ⟨x, hx, hp⟩ := hs
    have hpos : 0 < (all.map (fun n => if n.id == current.id then current else n)).countP
        (fun n => n.id == current.id) :=
      List.countP_pos_iff.mpr ⟨x, hx, hp⟩
    omega
  · next hs =>
    have h2 : List.find? (fun n => n.id == current.id)
        (all.map (fun n => if n.id == current.id then current else n)) = none := by
      cases hfind : List.find? (fun n => n.id == current.id)
          (all.map (fun n => if n.id == current.id then current else n)) with
      | none => rfl
      | some x => rw [hfind] at hs; simp at hs
    rw [List.find?_eq_none] at h2
    have hzero : (all.map (fun n => if n.id == current.id then current else n)).countP
        (fun n => n.id == current.id) = 0 := by
      rw [List.countP_eq_zero]
      intro x hx
      exact h2 x hx
    rw [List.countP_append, hzero]
    simp [List.countP_cons]

/-! ## Claims about the graph builder -/

/-- C3: the built edge set contains at most one edge per unordered pair of
node identifiers (proved for every node list); reciprocal links a → b and
b → a yield exactly the single edge (a, b); and the three-entity link cycle
a → b, b → c, c → a yields exactly the 3 edges (a,b), (b,c), (c,a), not 6. -/
theorem C3_dedup :
    (∀ ns : List Node,
      (buildLinks ns).Pairwise (fun l1 l2 => ¬ MatchesPair l1 l2.source l2.target)) ∧
    buildLinks (buildNodes noteAtoB [noteAtoB, noteBtoA] posZero) =
      [⟨"a", "b", none⟩] ∧
    buildLinks (buildNodes noteAtoB [noteAtoB, noteBtoC, noteCtoA] posZero) =
      [⟨"a", "b", none⟩, ⟨"b", "c", none⟩, ⟨"c", "a", none⟩] :=
  ⟨buildLinks_pairwise, by decide, by decide⟩

/-- C4 counterexample: a pool containing two entries with the focal
identifier produces two nodes with `isFocal = true`, refuting the claim
that exactly one node is focal for every candidate pool. -/
theorem C4_focal_cex :
    (buildNodes noteA [noteA, noteA] posZero).countP (fun n => n.isCurrent) = 2 := by
  decide

/-- C4 amended: provided at most one pool entry carries the focal
identifier, exactly one resulting node has `isFocal = true`, and every focal
node's identifier equals the supplied focal entity's identifier (whether or
not the focal entity appeared in the pool). -/
theorem C4_focal_amended (current : Note) (all : List Note) (pos : Nat → ℝ × ℝ)
    (h : all.countP (fun n => n.id == current.id) ≤ 1) :
    (buildNodes current all pos).countP (fun n => n.isCurrent) = 1 ∧
    ∀ nd ∈ buildNodes current all pos, nd.isCurrent = true → nd.id = current.id := by
  constructor
  · rw [buildNodes, buildNodesAux_countP_focal]
    exact mergedNotes_countP_focal current all h
  · intro nd hnd hc
    exact (buildNodesAux_isCurrent_id current pos 0 (mergedNotes current all) nd hnd).mp hc

/-- C4 witness: at the focal note a with pool [b], exactly one node is focal
and it is the node with id a. -/
theorem C4_focal_witness :
    (buildNodes noteA [noteB] posZero).countP (fun n => n.isCurrent) = 1 ∧
    ∀ nd ∈ buildNodes noteA [noteB] posZero, nd.isCurrent = true → nd.id = noteA.id :=
  C4_focal_amended noteA [noteB] posZero (by decide)

/-- C8 counterexample: a pool with a duplicated entry yields duplicated node
identifiers, refuting unconditional uniqueness. -/
theorem C8_unique_ids_cex :
    (buildNodes noteA [noteB, noteB] posZero).map (fun n => n.id) = ["b", "b", "a"] ∧
    ¬ ((buildNodes noteA [noteB, noteB] posZero).map (fun n => n.id)).Nodup := by
  constructor
  · decide
  · decide

/-- C8 amended: provided the candidate pool's identifiers are pairwise
distinct, the resulting node identifiers are pairwise distinct. -/
theorem C8_unique_ids_amended (current : Note) (all : List Note) (pos : Nat → ℝ × ℝ)
    (h : (all.map (fun n => n.id)).Nodup) :
    ((buildNodes current all pos).map (fun n => n.id)).Nodup := by
  rw [buildNodes, buildNodesAux_map_id]
  rcases mergedNotes_map_id_or current all with he | ⟨he, hnot⟩
  · rw [he]; exact h
  · rw [he]
    simp [List.nodup_append, h, hnot]

/-- C8 witness: at the focal note a with pool [b], the node identifiers are
pairwise distinct. -/
theorem C8_unique_ids_witness :
    ((buildNodes noteA [noteB] posZero).map (fun n => n.id)).Nodup :=
  C8_unique_ids_amended noteA [noteB] posZero (by decide)

/-- C7 counterexample: building from an entity that links to itself
produces a self-edge (s, s) — the build does not reject self-loops. -/
theorem C7_selfloop_cex :
    buildLinks (buildNodes noteSelf [] posZero) = [⟨"s", "s", none⟩] := by
  decide

/-- C7 amended: building from a focal entity that declares a link to its
own identifier produces a self-edge for that identifier (self-loops are
kept, not rejected). -/
theorem C7_selfloop_amended (current : Note) (all : List Note) (pos : Nat → ℝ × ℝ)
    (sl : SmartLink) (hsl : sl ∈ current.smartLinks) (hself : sl.targetId = current.id) :
    ∃ l ∈ buildLinks (buildNodes current all pos),
      l.source = current.id ∧ l.target = current.id := by
  obtain ⟨nd, hnd, hid, hlinks⟩ :=
    buildNodesAux_mem current pos 0 (mergedNotes current all) current
      (mergedNotes_self_mem current all)
  have hnd2 : nd ∈ buildNodes current all pos := by rw [buildNodes]; exact hnd
  have hsl2 : sl ∈ nd.smartLinks := by rw [hlinks]; exact hsl
  have hmem : sl.targetId ∈ (buildNodes current all pos).map (fun n => n.id) := by
    rw [hself, ← hid]
    exact List.mem_map_of_mem _ hnd2
  have hc : ((buildNodes current all pos).map (fun n => n.id)).contains sl.targetId
      = true := List.elem_iff.mpr hmem
  obtain ⟨l, hl, hm⟩ :=
    buildLinksAux_covers (buildNodes current all pos) [] nd sl hnd2 hsl2 hc
  refine ⟨l, by rw [buildLinks]; exact hl, ?_⟩
  rcases hm with ⟨h1, h2⟩ | ⟨h1, h2⟩
  · exact ⟨h1.trans hid, h2.trans hself⟩
  · exact ⟨h1.trans hself, h2.trans hid⟩

/-- C7 witness: the self-linking note s, built alone, yields a link whose
source and target both equal s. -/
theorem C7_selfloop_witness :
    ∃ l ∈ buildLinks (buildNodes noteSelf [] posZero),
      l.source = noteSelf.id ∧ l.target = noteSelf.id :=
  C7_selfloop_amended noteSelf [] posZero ⟨"s", none⟩ (by decide) (by decide)

/-! ## Physics-step machinery -/

theorem processIdx_length (env : Env) (links : List Link) (ns : List Node) (k : Nat) :
    (processIdx env links ns k).length = ns.length := by
  rw [processIdx]
  split
  · simp
  · rfl

theorem stepUpTo_length (env : Env) (links : List Link) (ns : List Node) :
    ∀ k, (stepUpTo env links ns k).length = ns.length := by
  intro k
  induction k with
  | zero => rfl
  | succ k ih => rw [stepUpTo, processIdx_length, ih]

theorem stepUpTo_get_ge (env : Env) (links : List Link) (ns : List Node) :
    ∀ (k j : Nat), k ≤ j → (stepUpTo env links ns k).get? j = ns.get? j := by
  intro k
  induction k with
  | zero => intro j _; rfl
  | succ k ih =>
    intro j hj
    rw [stepUpTo, processIdx]
    split
    · rw [List.get?_set_ne _ _ (by omega)]
      exact ih j (by omega)
    · exact ih j (by omega)

theorem stepUpTo_get_stable (env : Env) (links : List Link) (ns : List Node) :
    ∀ (k i : Nat), i + 1 ≤ k →
      (stepUpTo env links ns k).get? i = (stepUpTo env links ns (i + 1)).get? i := by
  intro k
  induction k with
  | zero => intro i hi; omega
  | succ k ih =>
    intro i hi
    rcases Nat.lt_or_ge i k with hik | hik
    · rw [stepUpTo, processIdx]
      split
      · rw [List.get?_set_ne _ _ (by omega)]
        exact ih i (by omega)
      · exact ih i (by omega)
    · have : i = k := by omega
      subst this
      rfl

theorem step_get_some (env : Env) (links : List Link) (ns : List Node)
    (i : Nat) (nd : Node) (h : ns.get? i = some nd) :
    (step env links ns).get? i =
      some (physNode env links (stepUpTo env links ns i) i nd) := by
  have hlen : i < ns.length := List.get?_eq_some.mp h |>.1
  have hstep1 : (stepUpTo env links ns (i + 1)).get? i =
      some (physNode env links (stepUpTo env links ns i) i nd) := by
    rw [stepUpTo, processIdx]
    have hget : (stepUpTo env links ns i).get? i = some nd :=
      (stepUpTo_get_ge env links ns i i (Nat.le_refl i)).trans h
    rw [hget]
    exact List.get?_set_eq_of_lt _ (by rw [stepUpTo_length]; exact hlen)
  rw [step, stepUpTo_get_stable env links ns ns.length i hlen, hstep1]

theorem clampNode_radius (env : Env) (n : Node) : (clampNode env n).radius = n.radius := by
  simp only [clampNode]
  split_ifs <;> rfl

theorem physNode_radius (env : Env) (links : List Link) (ns : List Node)
    (k : Nat) (node : Node) : (physNode env links ns k node).radius = node.radius := by
  simp only [physNode]
  split
  · rfl
  · rw [clampNode_radius]

/-- The node's padded diameter fits inside the canvas on both axes. -/
def SizeOk (env : Env) (n : Node) : Prop :=
  n.radius + 10 ≤ env.width - (n.radius + 10) ∧
  n.radius + 10 ≤ env.height - (n.radius + 10)

theorem clampNode_inBounds (env : Env) (n : Node) (h : SizeOk env n) :
    InBounds env (clampNode env n) := by
  obtain ⟨hw, hh⟩ := h
  simp only [InBounds, clampNode]
  split_ifs <;> refine ⟨?_, ?_, ?_, ?_⟩ <;> (try simp_all) <;> linarith

theorem physNode_inBounds (env : Env) (links : List Link) (ns : List Node)
    (k : Nat) (node : Node) (hdrag : env.dragging = none) (h : SizeOk env node) :
    InBounds env (physNode env links ns k node) := by
  simp only [physNode, hdrag]
  rw [if_neg (by simp)]
  exact clampNode_inBounds env _ h

theorem step_mem_inBounds (env : Env) (links : List Link) (ns : List Node)
    (hdrag : env.dragging = none) (hsize : ∀ n ∈ ns, SizeOk env n) :
    ∀ m ∈ step env links ns, InBounds env m := by
  intro m hm
  obtain ⟨i, hi⟩ := List.mem_iff_get?.mp hm
  have hilen : i < ns.length := by
    have := (List.get?_eq_some.mp hi).1
    rwa [step, stepUpTo_length] at this
  obtain ⟨nd, hnd⟩ : ∃ nd, ns.get? i = some nd := by
    rw [List.get?_eq_get hilen]
    exact ⟨_, rfl⟩
  have hstep := step_get_some env links ns i nd hnd
  rw [hstep] at hi
  have hm2 : m = physNode env links (stepUpTo env links ns i) i nd := by
    injection hi.symm
  rw [hm2]
  exact physNode_inBounds env links _ i nd hdrag (hsize nd (List.get?_mem hnd))

theorem step_mem_sizeOk (env : Env) (links : List Link) (ns : List Node)
    (hsize : ∀ n ∈ ns, SizeOk env n) :
    ∀ m ∈ step env links ns, SizeOk env m := by
  intro m hm
  obtain ⟨i, hi⟩ := List.mem_iff_get?.mp hm
  have hilen : i < ns.length := by
    have := (List.get?_eq_some.mp hi).1
    rwa [step, stepUpTo_length] at this
  obtain ⟨nd, hnd⟩ : ∃ nd, ns.get? i = some nd := by
    rw [List.get?_eq_get hilen]
    exact ⟨_, rfl⟩
  have hstep := step_get_some env links ns i nd hnd
  rw [hstep] at hi
  have hm2 : m = physNode env links (stepUpTo env links ns i) i nd := by
    injection hi.symm
  have hrad : m.radius = nd.radius := by rw [hm2, physNode_radius]
  have := hsize nd (List.get?_mem hnd)
  rw [SizeOk, hrad]
  exact this

theorem iter_succ_inBounds (env : Env) (links : List Link)
    (hdrag : env.dragging = none) :
    ∀ (m : Nat) (ns : List Node), (∀ n ∈ ns, SizeOk env n) →
      ∀ n ∈ iter env links (m + 1) ns, InBounds env n := by
  intro m
  induction m with
  | zero =>
    intro ns hsize n hn
    rw [iter, iter] at hn
    exact step_mem_inBounds env links ns hdrag hsize n hn
  | succ m ih =>
    intro ns hsize n hn
    rw [iter] at hn
    exact ih (step env links ns) (step_mem_sizeOk env links ns hsize) n hn

/-! ## Claims about boundary containment and dragging -/

/-- Canvas environment for the C2 counterexample. -/
noncomputable def cexEnv2 : Env :=
  { width := 800, height := 600, dragging := none, mouseX := 0, mouseY := 0 }

/-- A position oracle answering (-100, -100), a value inside the
initializer's random window `[-400, 400) × [-300, 300)`. -/
noncomputable def posNeg : Nat → ℝ × ℝ := fun _ => (-100, -100)

/-- C2 counterexample: after zero simulation steps the freshly built node
still sits at its random initial position (-100, -100), which lies outside
`[radius + 10, dimension - radius - 10]` on both axes; the claim fails for
step count 0. -/
theorem C2_bounds_cex :
    (iter cexEnv2 [] 0 (buildNodes noteA [] posNeg)).get? 0 =
      some (mkNode noteA (-100, -100) noteA) ∧
    ¬ InBounds cexEnv2 (mkNode noteA (-100, -100) noteA) := by
  constructor
  · rfl
  · intro h
    obtain ⟨hx, -⟩ := h
    simp only [mkNode, nodeRadius, noteA, beq_self_eq_true, if_true] at hx
    norm_num at hx

/-- C2 amended: after at least one simulation step with no node being
dragged, and provided every node's padded diameter fits the canvas, every
node's position lies within `[radius + 10, dimension - radius - 10]` on
both axes, and it stays there over any further steps. -/
theorem C2_bounds_amended (env : Env) (links : List Link) (ns : List Node) (m : Nat)
    (hdrag : env.dragging = none) (hsize : ∀ n ∈ ns, SizeOk env n) (hm : 1 ≤ m) :
    ∀ n ∈ iter env links m ns, InBounds env n := by
  cases m with
  | zero => exact absurd hm (by norm_num)
  | succ m => exact iter_succ_inBounds env links hdrag m ns hsize

/-- Witness environment for C2: a 1000 × 1000 canvas, nothing dragged. -/
noncomputable def wEnv2 : Env :=
  { width := 1000, height := 1000, dragging := none, mouseX := 0, mouseY := 0 }

/-- A position oracle answering the canvas center (500, 500). -/
noncomputable def posMid : Nat → ℝ × ℝ := fun _ => (500, 500)

/-- C2 witness: after one step of the single-node graph on the 1000 × 1000
canvas, the node (which the step leaves at the canvas center) is in bounds. -/
theorem C2_bounds_witness : InBounds wEnv2 (mkNode noteA (500, 500) noteA) := by
  have hsize : ∀ n ∈ buildNodes noteA [] posMid, SizeOk wEnv2 n := by
    intro n hn
    have hn2 : n ∈ [mkNode noteA (posMid 0) noteA] := hn
    have he : n = mkNode noteA (posMid 0) noteA := List.mem_singleton.mp hn2
    rw [he]
    simp only [SizeOk, mkNode, nodeRadius, noteA, beq_self_eq_true, if_true, wEnv2]
    norm_num
  have hstep : iter wEnv2 [] 1 (buildNodes noteA [] posMid) =
      [mkNode noteA (500, 500) noteA] := by
    simp only [iter, step, stepUpTo, processIdx, physNode, repAccumAux, springAccumAux,
      centerAdd, clampNode, wEnv2, posMid, buildNodes, mergedNotes, buildNodesAux,
      mkNode, noteA, nodeRadius, nodeColor, axisColor, List.get?, List.set, reduceCtorEq]
    norm_num
  refine C2_bounds_amended wEnv2 [] (buildNodes noteA [] posMid) 1 rfl hsize
    (by norm_num) (mkNode noteA (500, 500) noteA) ?_
  rw [hstep]
  exact List.mem_singleton_self _

/-- Drag environment: node 0 dragged, pointer at (300, 400). -/
noncomputable def dragEnv : Env :=
  { width := 800, height := 600, dragging := some 0, mouseX := 300, mouseY := 400 }

/-- A node being dragged in the C6 witness. -/
noncomputable def dragNode : Node :=
  { id := "d", content := "", lifeAxis := none, smartLinks := [], x := 100, y := 200,
    vx := 3, vy := 4, radius := 8, isCurrent := false, color := "#64748b" }

/-- A dragged node resting out of bounds in the C10 witness. -/
noncomputable def frozenNode : Node :=
  { id := "f", content := "", lifeAxis := none, smartLinks := [], x := -50, y := 50,
    vx := 0, vy := 0, radius := 8, isCurrent := false, color := "#64748b" }

/-- C6: while a node is dragged, each physics step overrides its velocity to
the proportional pull `0.1 * (pointer - position)`; the resulting velocity
is independent of every other node, link and force term, so no repulsion,
spring or center-gravity force is applied to it. -/
theorem C6_drag_velocity (env : Env) (links : List Link) (ns : List Node)
    (k : Nat) (nd : Node) (hd : env.dragging = some k) (hk : ns.get? k = some nd) :
    ((step env links ns).get? k).map (fun m => (m.vx, m.vy)) =
      some ((env.mouseX - nd.x) * 0.1, (env.mouseY - nd.y) * 0.1) := by
  rw [step_get_some env links ns k nd hk]
  simp [physNode, hd]

/-- C6 witness: the dragged node's velocity after one step equals 0.1 times
its offset to the pointer. -/
theorem C6_drag_velocity_witness :
    ((step dragEnv [] [dragNode]).get? 0).map (fun m => (m.vx, m.vy)) =
      some (20, 20) := by
  have h := C6_drag_velocity dragEnv [] [dragNode] 0 dragNode rfl rfl
  rw [h]
  norm_num [dragEnv, dragNode]

/-- C10: while a node is dragged, the physics step leaves its position
unchanged (boundary clamping included — the step writes only the dragged
node's velocity components). -/
theorem C10_drag_position_frozen (env : Env) (links : List Link) (ns : List Node)
    (k : Nat) (nd : Node) (hd : env.dragging = some k) (hk : ns.get? k = some nd) :
    ((step env links ns).get? k).map (fun m => (m.x, m.y)) = some (nd.x, nd.y) := by
  rw [step_get_some env links ns k nd hk]
  simp [physNode, hd]

/-- C10 witness: a dragged node resting out of bounds at (-50, 50) is left
exactly there by the step — clamping is not applied to it. -/
theorem C10_drag_position_frozen_witness :
    ((step dragEnv [] [frozenNode]).get? 0).map (fun m => (m.x, m.y)) =
      some (-50, 50) := by
  have h := C10_drag_position_frozen dragEnv [] [frozenNode] 0 frozenNode rfl rfl
  rw [h]
  norm_num [frozenNode]

/-! ## Newton's third law for the repulsion force (C1) -/

/-- Evaluating the square root of a perfect square of rationals. -/
theorem sqrt_num_eval {a b : ℝ} (hb : 0 ≤ b) (h : b * b = a) : Real.sqrt a = b := by
  rw [← h, Real.sqrt_mul_self hb]

/-- The repulsion contribution only reads positions, so nodes at equal
positions receive equal contributions. -/
theorem repContrib_pos_congr (n p q : Node) (hx : p.x = q.x) (hy : p.y = q.y) :
    repContrib n p = repContrib n q := by
  simp only [repContrib, clampedDist, rawDist, hx, hy]

/-- The repulsion kernel is antisymmetric: evaluated at one common pair of
positions, the two contributions are equal in magnitude and opposite in
direction. -/
theorem repContrib_antisymm (n m : Node) :
    repContrib m n = (-(repContrib n m).1, -(repContrib n m).2) := by
  simp only [repContrib, clampedDist, rawDist]
  have h1 : (m.x - n.x) * (m.x - n.x) + (m.y - n.y) * (m.y - n.y) =
      (n.x - m.x) * (n.x - m.x) + (n.y - m.y) * (n.y - m.y) := by ring
  rw [h1]
  simp only [Prod.mk.injEq]
  constructor <;> ring

theorem repForceOn_eval (env : Env) (links : List Link) (ns : List Node)
    (i j : Nat) (a b : Node)
    (ha : (stepUpTo env links ns i).get? i = some a)
    (hb : (stepUpTo env links ns i).get? j = some b) :
    repForceOn env links ns i j = repContrib a b := by
  simp only [repForceOn]
  rw [ha, hb]

/-- C1 amended: the in-step repulsion forces between nodes i < j are equal
in magnitude and opposite in direction whenever node i's position is left
unchanged by its own (earlier) in-place update; in general the sequential
in-place update makes node j see node i's already updated position, and
only the underlying kernel is antisymmetric. -/
theorem C1_third_law_amended (env : Env) (links : List Link) (ns : List Node)
    (i j : Nat) (a a2 b : Node) (hij : i < j)
    (ha : ns.get? i = some a) (hb : ns.get? j = some b)
    (ha2 : (stepUpTo env links ns (i + 1)).get? i = some a2)
    (hx : a2.x = a.x) (hy : a2.y = a.y) :
    repForceOn env links ns j i =
      (-(repForceOn env links ns i j).1, -(repForceOn env links ns i j).2) := by
  have hsi_i : (stepUpTo env links ns i).get? i = some a :=
    (stepUpTo_get_ge env links ns i i (le_refl i)).trans ha
  have hsi_j : (stepUpTo env links ns i).get? j = some b :=
    (stepUpTo_get_ge env links ns i j (by omega)).trans hb
  have hsj_j : (stepUpTo env links ns j).get? j = some b :=
    (stepUpTo_get_ge env links ns j j (le_refl j)).trans hb
  have hsj_i : (stepUpTo env links ns j).get? i = some a2 :=
    (stepUpTo_get_stable env links ns j i (by omega)).trans ha2
  rw [repForceOn_eval env links ns i j a b hsi_i hsi_j,
    repForceOn_eval env links ns j i b a2 hsj_j hsj_i,
    repContrib_pos_congr b a2 a hx hy]
  exact repContrib_antisymm a b

/-- Canvas environment for the C1 counterexample and witness. -/
noncomputable def cexEnv1 : Env :=
  { width := 1000, height := 1000, dragging := none, mouseX := 0, mouseY := 0 }

/-- Position oracle putting the first built node at (100, 500) and the rest
at (200, 500). -/
noncomputable def posLine : Nat → ℝ × ℝ :=
  fun k => if k = 0 then (100, 500) else (200, 500)

/-- The two-node graph of the C1 counterexample, as built by the graph
builder: the pool note b at (100, 500) and the focal note a at (200, 500). -/
noncomputable def cexNodes1 : List Node := buildNodes noteA [noteB] posLine

/-- The literal node for note b at (100, 500). -/
noncomputable def bNode1 : Node :=
  { id := "b", content := "", lifeAxis := none, smartLinks := [], x := 100, y := 500,
    vx := 0, vy := 0, radius := 8, isCurrent := false, color := "#64748b" }

/-- The literal node for the focal note a at (200, 500). -/
noncomputable def aNode1 : Node :=
  { id := "a", content := "", lifeAxis := none, smartLinks := [], x := 200, y := 500,
    vx := 0, vy := 0, radius := 20, isCurrent := true, color := "#ffffff" }

theorem cexNodes1_eq : cexNodes1 = [bNode1, aNode1] := by
  simp only [cexNodes1, buildNodes, mergedNotes, buildNodesAux, mkNode, noteA, noteB,
    posLine, nodeRadius, nodeColor, axisColor, List.map, List.find?, bNode1, aNode1]
  simp

/-- C1 counterexample: in the built two-node edge-free graph, within one
simulation step the repulsion force node 1 computes against node 0 is not
the opposite of the force node 0 computed against node 1, because node 0's
position was already updated in place when node 1's accumulation ran. -/
theorem C1_third_law_cex :
    buildLinks cexNodes1 = [] ∧
    cexNodes1.map (fun n => n.id) = ["b", "a"] ∧
    repForceOn cexEnv1 (buildLinks cexNodes1) cexNodes1 1 0 ≠
      (-(repForceOn cexEnv1 (buildLinks cexNodes1) cexNodes1 0 1).1,
       -(repForceOn cexEnv1 (buildLinks cexNodes1) cexNodes1 0 1).2) := by
  have hl : buildLinks cexNodes1 = [] := by decide
  refine ⟨hl, by decide, ?_⟩
  rw [hl, cexNodes1_eq]
  have s1 : Real.sqrt (10000 : ℝ) = 100 := sqrt_num_eval (by norm_num) (by norm_num)
  have s2 : Real.sqrt ((2370813481 : ℝ) / 250000) = 48691 / 500 :=
    sqrt_num_eval (by norm_num) (by norm_num)
  simp only [repForceOn, stepUpTo, processIdx, physNode, repAccumAux, springAccumAux,
    centerAdd, clampNode, repContrib, clampedDist, rawDist, List.get?, List.set,
    bNode1, aNode1, cexEnv1, REPULSION, DAMPING, CENTER_PULL, reduceCtorEq]
  norm_num [s1, s2]

/-- A node sitting where repulsion from its right neighbour exactly cancels
the center pull, so its own update leaves it in place. -/
noncomputable def wNode0 : Node :=
  { id := "p", content := "", lifeAxis := none, smartLinks := [], x := 485, y := 500,
    vx := 0, vy := 0, radius := 8, isCurrent := false, color := "#64748b" }

/-- The right neighbour of `wNode0`, 100 units away. -/
noncomputable def wNode1 : Node :=
  { id := "q", content := "", lifeAxis := none, smartLinks := [], x := 585, y := 500,
    vx := 0, vy := 0, radius := 8, isCurrent := false, color := "#64748b" }

/-- C1 witness: in the equilibrium configuration the first node's update
leaves its position unchanged, and the two in-step repulsion forces are
exactly opposite. -/
theorem C1_third_law_witness :
    repForceOn cexEnv1 [] [wNode0, wNode1] 1 0 =
      (-(repForceOn cexEnv1 [] [wNode0, wNode1] 0 1).1,
       -(repForceOn cexEnv1 [] [wNode0, wNode1] 0 1).2) := by
  have s1 : Real.sqrt (10000 : ℝ) = 100 := sqrt_num_eval (by norm_num) (by norm_num)
  have ha2 : (stepUpTo cexEnv1 [] [wNode0, wNode1] 1).get? 0 = some wNode0 := by
    simp only [stepUpTo, processIdx, physNode, repAccumAux, springAccumAux,
      centerAdd, clampNode, repContrib, clampedDist, rawDist, List.get?, List.set,
      wNode0, wNode1, cexEnv1, REPULSION, DAMPING, CENTER_PULL, reduceCtorEq]
    norm_num [s1]
  exact C1_third_law_amended cexEnv1 [] [wNode0, wNode1] 0 1 wNode0 wNode0 wNode1
    (by norm_num) rfl rfl ha2 rfl rfl

/-! ## Boundedness of the repulsion computation (C9) -/

theorem rawDist_nonneg (n m : Node) : 0 ≤ rawDist n m := Real.sqrt_nonneg _

theorem clampedDist_ge_one (n m : Node) : 1 ≤ clampedDist n m := by
  simp only [clampedDist]
  split_ifs <;> linarith [rawDist_nonneg n m]

theorem rawDist_le_clampedDist (n m : Node) : rawDist n m ≤ clampedDist n m := by
  simp only [clampedDist]
  split_ifs <;> linarith [rawDist_nonneg n m]

/-- C9: the repulsion computation clamps its distance to at least 1 unit
before dividing, so the per-pair repulsion contribution is well defined
(nonzero divisor) and its Euclidean magnitude never exceeds the repulsion
constant — for every pair of node positions, coincident nodes included. -/
theorem C9_repulsion_bounded (n m : Node) :
    1 ≤ clampedDist n m ∧
    Real.sqrt ((repContrib n m).1 ^ 2 + (repContrib n m).2 ^ 2) ≤ REPULSION := by
  refine ⟨clampedDist_ge_one n m, ?_⟩
  have hd1 : 1 ≤ clampedDist n m := clampedDist_ge_one n m
  have hrd : rawDist n m ≤ clampedDist n m := rawDist_le_clampedDist n m
  have hr0 : 0 ≤ rawDist n m := rawDist_nonneg n m
  have hd0 : (0 : ℝ) < clampedDist n m := by linarith
  have hdne : clampedDist n m ≠ 0 := ne_of_gt hd0
  have hsq : rawDist n m ^ 2 =
      (n.x - m.x) * (n.x - m.x) + (n.y - m.y) * (n.y - m.y) := by
    rw [rawDist]
    exact Real.sq_sqrt
      (add_nonneg (mul_self_nonneg (n.x - m.x)) (mul_self_nonneg (n.y - m.y)))
  have hc1 : (repContrib n m).1 =
      REPULSION * (n.x - m.x) / (clampedDist n m * clampedDist n m * clampedDist n m) := by
    simp only [repContrib]
    field_simp
    ring
  have hc2 : (repContrib n m).2 =
      REPULSION * (n.y - m.y) / (clampedDist n m * clampedDist n m * clampedDist n m) := by
    simp only [repContrib]
    field_simp
    ring
  have hd3 : (0 : ℝ) < clampedDist n m * clampedDist n m * clampedDist n m :=
    mul_pos (mul_pos hd0 hd0) hd0
  have hmain : (repContrib n m).1 ^ 2 + (repContrib n m).2 ^ 2 ≤ REPULSION ^ 2 := by
    rw [hc1, hc2, div_pow, div_pow, ← add_div, div_le_iff (pow_pos hd3 2)]
    have e1 : (REPULSION * (n.x - m.x)) ^ 2 + (REPULSION * (n.y - m.y)) ^ 2 =
        REPULSION ^ 2 * rawDist n m ^ 2 := by
      rw [hsq]; ring
    rw [e1]
    have hstep1 : clampedDist n m ≤ clampedDist n m * clampedDist n m :=
      le_mul_of_one_le_left (le_of_lt hd0) hd1
    have hstep2 : clampedDist n m * clampedDist n m ≤
        clampedDist n m * clampedDist n m * clampedDist n m :=
      le_mul_of_one_le_right (le_of_lt (mul_pos hd0 hd0)) hd1
    have hrD : rawDist n m ≤ clampedDist n m * clampedDist n m * clampedDist n m := by
      linarith
    have h2 : rawDist n m ^ 2 ≤ (clampedDist n m * clampedDist n m * clampedDist n m) ^ 2 :=
      pow_le_pow_left hr0 hrD 2
    have hR : (0 : ℝ) ≤ REPULSION ^ 2 := by simp only [REPULSION]; norm_num
    nlinarith
  calc Real.sqrt ((repContrib n m).1 ^ 2 + (repContrib n m).2 ^ 2)
      ≤ Real.sqrt (REPULSION ^ 2) := Real.sqrt_le_sqrt hmain
    _ = REPULSION := Real.sqrt_sq (by simp only [REPULSION]; norm_num)

/-! ## Click vs. drag disambiguation (C5) -/

theorem findHitIdxAux_spec (x y : ℝ) :
    ∀ (ns : List Node) (k i : Nat), findHitIdxAux x y k ns = some i →
      k ≤ i ∧ ∃ n, ns.get? (i - k) = some n ∧
        Real.sqrt ((n.x - x) * (n.x - x) + (n.y - y) * (n.y - y)) < n.radius + 5 := by
  intro ns
  induction ns with
  | nil => intro k i h; simp [findHitIdxAux] at h
  | cons n rest ih =>
    intro k i h
    simp only [findHitIdxAux] at h
    split at h
    · next hc =>
      have he : k = i := by injection h
      subst he
      exact ⟨le_refl k, n, by simp, hc⟩
    · obtain ⟨hk1, n', hget, hcond⟩ := ih (k + 1) i h
      refine ⟨by omega, n', ?_, hcond⟩
      have he : i - k = (i - (k + 1)) + 1 := by omega
      rw [he, List.get?_cons_succ]
      exact hget

theorem findHit_spec (x y : ℝ) (ns : List Node) (i : Nat)
    (h : findHitIdxAux x y 0 ns = some i) :
    ∃ n, ns.get? i = some n ∧
      Real.sqrt ((n.x - x) * (n.x - x) + (n.y - y) * (n.y - y)) < n.radius + 5 := by
  obtain ⟨-, n, hget, hc⟩ := findHitIdxAux_spec x y ns 0 i h
  rw [Nat.sub_zero] at hget
  exact ⟨n, hget, hc⟩

/-- C5 amended: a pointer-down hitting node X followed by pointer-up at the
same point navigates to X exactly when X is not the focal node; and after a
pointer-down on X, if the release point is farther than X's radius + 10
from X's center, no navigation fires.  The gesture is classified by the
release point's distance to the node's center, not by the pointer's total
travel. -/
theorem C5_click_amended :
    (∀ (current : Note) (ns : List Node) (x y : ℝ) (i : Nat) (n : Node),
      handleMouseDown ns none x y = some i → ns.get? i = some n →
      (handleMouseUp current ns (handleMouseDown ns none x y) x y).1 =
        (if n.id = current.id then none else some n.id)) ∧
    (∀ (current : Note) (ns : List Node) (x y : ℝ) (k : Nat) (n : Node),
      ns.get? k = some n →
      ¬ Real.sqrt ((n.x - x) * (n.x - x) + (n.y - y) * (n.y - y)) < n.radius + 10 →
      (handleMouseUp current ns (some k) x y).1 = none) := by
  constructor
  · intro current ns x y i n hdown hget
    have hfind : findHitIdxAux x y 0 ns = some i := by
      rw [handleMouseDown] at hdown
      cases hf : findHitIdxAux x y 0 ns with
      | none => rw [hf] at hdown; simp at hdown
      | some k =>
        rw [hf] at hdown
        simp at hdown
        rw [hdown]
    obtain ⟨n', hget', hc⟩ := findHit_spec x y ns i hfind
    rw [hget] at hget'
    have he : n = n' := by injection hget'
    subst he
    have hlt : Real.sqrt ((n.x - x) * (n.x - x) + (n.y - y) * (n.y - y)) <
        n.radius + 10 := by linarith
    rw [hdown]
    simp only [handleMouseUp, hget]
    rw [if_pos hlt]
    split_ifs <;> rfl
  · intro current ns x y k n hget hfar
    simp only [handleMouseUp, hget]
    rw [if_neg hfar]

/-- C5 counterexample: with the node b of radius 8 centered at (100, 500),
a pointer-down at (112, 500) grabs it, the pointer travels 29 units — more
than radius + 10 = 18 — to (83, 500), yet pointer-up still fires navigation
to b, because the release point is within 18 units of the node's center. -/
theorem C5_click_cex :
    Real.sqrt (((112 : ℝ) - 83) * (112 - 83) + ((500 : ℝ) - 500) * (500 - 500)) > 8 + 10 ∧
    cexNodes1.map (fun n => n.id) = ["b", "a"] ∧
    (cexNodes1.get? 0).map (fun n => n.radius) = some 8 ∧
    handleMouseDown cexNodes1 none 112 500 = some 0 ∧
    (handleMouseUp noteA cexNodes1 (handleMouseDown cexNodes1 none 112 500) 83 500).1 =
      some "b" := by
  have s29 : Real.sqrt (841 : ℝ) = 29 := sqrt_num_eval (by norm_num) (by norm_num)
  have s12 : Real.sqrt (144 : ℝ) = 12 := sqrt_num_eval (by norm_num) (by norm_num)
  have s17 : Real.sqrt (289 : ℝ) = 17 := sqrt_num_eval (by norm_num) (by norm_num)
  refine ⟨?_, by decide, ?_, ?_, ?_⟩
  · rw [show ((112 : ℝ) - 83) * (112 - 83) + ((500 : ℝ) - 500) * (500 - 500) = 841
      by norm_num, s29]
    norm_num
  · rw [cexNodes1_eq]
    simp [bNode1]
  · rw [cexNodes1_eq]
    simp only [handleMouseDown, findHitIdxAux, bNode1, aNode1]
    norm_num [s12]
  · rw [cexNodes1_eq]
    simp only [handleMouseDown, handleMouseUp, findHitIdxAux, List.get?,
      bNode1, aNode1, noteA]
    norm_num [s12, s17]
    simp

/-- C5 witness: a pointer-down at node b's center followed by an immediate
pointer-up navigates to b (b is not focal); and a release point 200 units
away from the node's center fires no navigation. -/
theorem C5_click_witness :
    (handleMouseUp noteA cexNodes1 (handleMouseDown cexNodes1 none 100 500) 100 500).1 =
      some "b" ∧
    (handleMouseUp noteA cexNodes1 (some 0) 300 500).1 = none := by
  have s200 : Real.sqrt (40000 : ℝ) = 200 := sqrt_num_eval (by norm_num) (by norm_num)
  constructor
  · have hdown : handleMouseDown cexNodes1 none 100 500 = some 0 := by
      rw [cexNodes1_eq]
      simp only [handleMouseDown, findHitIdxAux, bNode1, aNode1]
      norm_num
    have hget : cexNodes1.get? 0 = some bNode1 := by rw [cexNodes1_eq]; rfl
    have h := C5_click_amended.1 noteA cexNodes1 100 500 0 bNode1 hdown hget
    rw [h]
    simp [bNode1, noteA]
  · have hget : cexNodes1.get? 0 = some bNode1 := by rw [cexNodes1_eq]; rfl
    refine C5_click_amended.2 noteA cexNodes1 300 500 0 bNode1 hget ?_
    rw [show (bNode1.x - 300) * (bNode1.x - 300) + (bNode1.y - 500) * (bNode1.y - 500)
      = (40000 : ℝ) by simp [bNode1]; norm_num, s200]
    simp [bNode1]
    norm_num

end KG
